import Mathlib

/-!
Verification development for the `parabolic` time-stepping library
(`parabolic/time_steppers.py`).

Shallow embedding conventions:

* The discretized function space `V` has `n` degrees of freedom; a dolfin
  `Function` is represented by its coefficient vector `Vec n = Fin n → ℚ`,
  an assembled dolfin matrix by `Mat n = Fin n → Fin n → ℚ`.  Python float
  literals in the source are modelled by the rational value of the decimal
  they are written as; the one threshold comparison (against `1.0e-15` in
  the tableau assertion) distinguishes the double from the decimal only
  for magnitudes strictly between the two, a zone no statement here
  touches, so float rounding is irrelevant to everything proved below.
* `assemble(u0 * v * dx_multiplier * dx)`, for `u0` a `Function` of `V`,
  is the mass matrix applied to the coefficient vector of `u0`; the mass
  matrix `assemble(u * v * dx_multiplier * dx)` itself is data of the
  problem (it is determined by `V` and `dx_multiplier` alone and every
  re-assembly yields the same matrix).
* `DirichletBC.apply(A, b)` overwrites each constrained row of `A` with
  the corresponding identity row and the constrained entries of `b` with
  the prescribed values (row application; dolfin mutates its arguments in
  place, which the embedding renders by explicit state passing where the
  mutated object outlives the call).
* A `KrylovSolver` is an external collaborator: it is modelled by an
  abstract solution kernel, a function of the algorithm and
  preconditioner names, the tolerances, the iteration cap, the set
  operator(s) and the right-hand side.  Per the dolfin API the
  `monitor_convergence` parameter only toggles progress printing, so it
  is not an argument of the kernel.
* Every linear solve a `step` performs is recorded in an explicit trace
  (`solves`), so that "which system is solved, with which boundary data"
  is a statement about the trace.
-/

/-- Coefficient vector of a finite-element function with `n` dofs. -/
abbrev Vec (n : ℕ) := Fin n → ℚ

/-- Assembled sparse matrix on an `n`-dof space. -/
abbrev Mat (n : ℕ) := Fin n → Fin n → ℚ

/-- Matrix-vector product (dolfin `A.mult(x, y)` / `A * x`). -/
def matVec {n : ℕ} (A : Mat n) (x : Vec n) : Vec n :=
  fun i => ∑ j, A i j * x j

/-- A Dirichlet boundary condition as seen by `bc.apply`: the set of
constrained dofs together with the prescribed values. -/
structure DirichletBCData (n : ℕ) where
  constrained : Fin n → Bool
  value : Fin n → ℚ

/-- Effect of `bc.apply(A, b)` on the matrix: each constrained row is
replaced by the identity row. -/
def bcApplyMat {n : ℕ} (bc : DirichletBCData n) (A : Mat n) : Mat n :=
  fun i j => if bc.constrained i then (if i = j then 1 else 0) else A i j

/-- Effect of `bc.apply(A, b)` on the right-hand side: each constrained
entry is overwritten with the prescribed value. -/
def bcApplyVec {n : ℕ} (bc : DirichletBCData n) (b : Vec n) : Vec n :=
  fun i => if bc.constrained i then bc.value i else b i

/-- The loop `for bc in bcs: bc.apply(A, rhs)`, applied in list order
(later constraints overwrite earlier ones on shared dofs). -/
def applyBCs {n : ℕ} (bcs : List (DirichletBCData n)) (A : Mat n) (rhs : Vec n) :
    Mat n × Vec n :=
  bcs.foldl (fun p bc => (bcApplyMat bc p.1, bcApplyVec bc p.2)) (A, rhs)

/-- Matrix part of `applyBCs` on its own. -/
def applyBCsMat {n : ℕ} (bcs : List (DirichletBCData n)) (A : Mat n) : Mat n :=
  bcs.foldl (fun M bc => bcApplyMat bc M) A

/-- Solver parameters that determine the numerical outcome of a Krylov
solve: algorithm and preconditioner choice, tolerances, iteration cap. -/
structure NumericParams where
  algorithm : String
  preconditioner : String
  relative_tolerance : ℚ
  absolute_tolerance : ℚ
  maximum_iterations : ℕ
deriving DecidableEq

/-- Full parameter set handed to a `KrylovSolver`, including the
`monitor_convergence` flag (which per the dolfin API only toggles
progress printing). -/
structure KrylovParams where
  algorithm : String
  preconditioner : String
  relative_tolerance : ℚ
  absolute_tolerance : ℚ
  maximum_iterations : ℕ
  monitor_convergence : Bool
deriving DecidableEq

/-- The numerically relevant part of `KrylovParams`. -/
def KrylovParams.numeric (p : KrylovParams) : NumericParams :=
  ⟨p.algorithm, p.preconditioner, p.relative_tolerance, p.absolute_tolerance,
    p.maximum_iterations⟩

/-- One recorded linear solve: parameters, system operator, optional
separate preconditioning operator, and right-hand side. -/
structure SolveCall (n : ℕ) where
  params : KrylovParams
  op : Mat n
  precond : Option (Mat n)
  rhs : Vec n

/-- Everything the external iterative solver may base its answer on. -/
structure NumericSolveData (n : ℕ) where
  params : NumericParams
  op : Mat n
  precond : Option (Mat n)
  rhs : Vec n

/-- Strip the non-numerical parameter from a recorded solve. -/
def SolveCall.numeric {n : ℕ} (c : SolveCall n) : NumericSolveData n :=
  ⟨c.params.numeric, c.op, c.precond, c.rhs⟩

/-- Abstract linear-solver kernel (the external Krylov backend): given
the numerically relevant data it produces the solution vector. -/
abbrev SolverKernel (n : ℕ) := NumericSolveData n → Vec n

/-- Modelled from the dolfin API: `solver.solve(x, rhs)` writes the
kernel output for the configured operator(s), parameters and right-hand
side; `monitor_convergence` only controls progress printing and hence
does not reach the kernel. -/
def solveWithKrylov {n : ℕ} (kernel : SolverKernel n) (c : SolveCall n) : Vec n :=
  kernel c.numeric

/-- Result of one `step` call: the trace of linear solves performed, in
order, and the returned state. -/
structure StepResult (n : ℕ) where
  solves : List (SolveCall n)
  u1 : Vec n

/-- The verbose-independent observables of a step: the returned state
and the numerical content of each solve. -/
def StepResult.observable {n : ℕ} (r : StepResult n) :
    Vec n × List (NumericSolveData n) :=
  (r.u1, r.solves.map SolveCall.numeric)

/-- Abstract problem class (`ParabolicProblem`): what the time steppers
request from the spatial discretization.  `massMatrix` is
`assemble(u * v * dx_multiplier * dx)`, fixed by `V` and
`dx_multiplier`; every (re-)assembly of this form yields this matrix. -/
structure ParabolicProblem (n : ℕ) where
  massMatrix : Mat n
  get_system : ℚ → Mat n × Vec n
  get_bcs : ℚ → List (DirichletBCData n)
  get_preconditioner : ℚ → Option (Mat n)

/-- Dummy stepper: holds only the problem. -/
structure Dummy (n : ℕ) where
  problem : ParabolicProblem n

/-- Dummy.step.  dolfin `Function` objects live on a heap, modelled as a
list of coefficient vectors addressed by allocation index:
`u1 = Function(self.problem.V)` allocates a fresh zero function at index
`heap.length`, and `u1.interpolate(u0)` (same space `V`) copies the dof
values of `u0` into that fresh cell.  Returns the new heap, the index of
the returned function, and the (empty) trace of linear solves. -/
def Dummy.step {n : ℕ} (_S : Dummy n) (heap : List (Vec n)) (u0 : ℕ)
    (_t _dt : ℚ) (_bcs1 : List (DirichletBCData n)) (_tol : ℚ) (_verbose : Bool) :
    List (Vec n) × ℕ × List (SolveCall n) :=
  let u1 : ℕ := heap.length
  let heap1 := heap ++ [fun _ => 0]
  let heap2 := heap1.set u1 (heap1.getD u0 (fun _ => 0))
  (heap2, u1, [])

/-- ExplicitEuler stepper state: the problem and the mass operator
`self.M = assemble(u * v * dx_multiplier * dx)` stored at construction.
`M` is mutable state (in `step`, `A = self.M` binds `A` to the same
matrix object, and `bc.apply(A, rhs)` mutates it in place), so `step`
returns the stepper state it leaves behind. -/
structure ExplicitEuler (n : ℕ) where
  problem : ParabolicProblem n
  M : Mat n

/-- ExplicitEuler.__init__. -/
def ExplicitEuler.init {n : ℕ} (problem : ParabolicProblem n) : ExplicitEuler n :=
  ⟨problem, problem.massMatrix⟩

/-- ExplicitEuler.step, statement by statement:
`L, b = get_system(t)`; `Lu0 = L * u0`;
`rhs = assemble(u0 * v * dx_multiplier * dx)` (fresh mass assembly);
`rhs.axpy(dt, -Lu0 + b)`; `A = self.M` (alias, not a copy);
`bc.apply(A, rhs)` for each bc of `get_bcs(t + dt)` (mutates `self.M`
through the alias); CG/AMG Krylov solve of `A x = rhs`. -/
def ExplicitEuler.step {n : ℕ} (S : ExplicitEuler n) (kernel : SolverKernel n)
    (u0 : Vec n) (t dt tol : ℚ) (maxiter : ℕ) (verbose : Bool) :
    StepResult n × ExplicitEuler n :=
  let Lb := S.problem.get_system t
  let Lu0 := matVec Lb.1 u0
  let rhs0 := matVec S.problem.massMatrix u0
  let rhs1 := rhs0 + dt • (-Lu0 + Lb.2)
  let Ar := applyBCs (S.problem.get_bcs (t + dt)) S.M rhs1
  let params : KrylovParams :=
    ⟨"cg", "amg", tol, 0, maxiter, verbose⟩
  let call : SolveCall n := ⟨params, Ar.1, none, Ar.2⟩
  (⟨[call], solveWithKrylov kernel call⟩, ⟨S.problem, Ar.1⟩)

/-- ImplicitEuler stepper state. -/
structure ImplicitEuler (n : ℕ) where
  problem : ParabolicProblem n
  M : Mat n

/-- ImplicitEuler.__init__. -/
def ImplicitEuler.init {n : ℕ} (problem : ParabolicProblem n) : ImplicitEuler n :=
  ⟨problem, problem.massMatrix⟩

/-- ImplicitEuler.step, statement by statement:
`L, b = get_system(t + dt)`; `A = self.M + dt * L` (a freshly created
matrix, so `self.M` is untouched); `rhs = assemble(u0 * v * dxm * dx)`;
`rhs.axpy(dt, b)`; boundary conditions of `get_bcs(t + dt)` applied to
the fresh `(A, rhs)`; `P = get_preconditioner(t + dt)`, and when a
preconditioner is supplied the solver is given `M + dt * P` as the
preconditioning operator. -/
def ImplicitEuler.step {n : ℕ} (S : ImplicitEuler n) (kernel : SolverKernel n)
    (u0 : Vec n) (t dt tol : ℚ) (maxiter : ℕ) (verbose : Bool)
    (krylov preconditioner : String) :
    StepResult n × ImplicitEuler n :=
  let Lb := S.problem.get_system (t + dt)
  let A := S.M + dt • Lb.1
  let rhs := matVec S.problem.massMatrix u0 + dt • Lb.2
  let Ar := applyBCs (S.problem.get_bcs (t + dt)) A rhs
  let P := S.problem.get_preconditioner (t + dt)
  let params : KrylovParams :=
    ⟨krylov, preconditioner, tol, 0, maxiter, verbose⟩
  let call : SolveCall n :=
    ⟨params, Ar.1, P.map (fun Pm => S.M + dt • Pm), Ar.2⟩
  (⟨[call], solveWithKrylov kernel call⟩, S)

/-- Trapezoidal stepper state. -/
structure Trapezoidal (n : ℕ) where
  problem : ParabolicProblem n
  M : Mat n

/-- Trapezoidal.__init__. -/
def Trapezoidal.init {n : ℕ} (problem : ParabolicProblem n) : Trapezoidal n :=
  ⟨problem, problem.massMatrix⟩

/-- Trapezoidal.step, statement by statement:
`L0, b0 = get_system(t)`; `L1, b1 = get_system(t + dt)`;
`Lu0 = L0 * u0`; `rhs = assemble(u0 * v * dxm * dx)`;
`rhs.axpy(-dt * 0.5, Lu0)`; `rhs.axpy(+dt * 0.5, b0 + b1)`;
`A = self.M + 0.5 * dt * L1` (fresh matrix); boundary conditions of
`get_bcs(t + dt)` applied to `(A, rhs)`; Krylov solve. -/
def Trapezoidal.step {n : ℕ} (S : Trapezoidal n) (kernel : SolverKernel n)
    (u0 : Vec n) (t dt tol : ℚ) (maxiter : ℕ) (verbose : Bool)
    (krylov preconditioner : String) :
    StepResult n × Trapezoidal n :=
  let Lb0 := S.problem.get_system t
  let Lb1 := S.problem.get_system (t + dt)
  let Lu0 := matVec Lb0.1 u0
  let rhs0 := matVec S.problem.massMatrix u0
  let rhs1 := rhs0 + (-dt * (1/2)) • Lu0
  let rhs2 := rhs1 + (dt * (1/2)) • (Lb0.2 + Lb1.2)
  let A := S.M + ((1/2 : ℚ) * dt) • Lb1.1
  let Ar := applyBCs (S.problem.get_bcs (t + dt)) A rhs2
  let params : KrylovParams :=
    ⟨krylov, preconditioner, tol, 0, maxiter, verbose⟩
  let call : SolveCall n := ⟨params, Ar.1, none, Ar.2⟩
  (⟨[call], solveWithKrylov kernel call⟩, S)

/-- A symbolic boundary-value expression handed to `runge_kutta_step` as
part of `sympy_dirichlet_bcs`: `deriv k` is the sympy k-th time
derivative `sympy.diff(expr, t, k)` compiled to a spatially evaluable
function of the time parameter (dof values on the constrained region). -/
structure SympyExpr (n : ℕ) where
  deriv : ℕ → ℚ → Fin n → ℚ

/-- A dolfin `Expression` built from ccode: a time-parameterized dof
valuation together with its current user parameter `t`. -/
structure Expression (n : ℕ) where
  val : ℚ → Fin n → ℚ
  t : ℚ

/-- A dolfin `DirichletBC(V, expression, boundary)` as constructed in
`runge_kutta_step`, together with `pyattr_t`: the plain Python instance
attribute named `t` that the statement `g.t = ...` creates on the
wrapper object.  dolfin never reads that attribute; the prescribed
boundary values are always taken from the wrapped `Expression` at the
parameter stored inside the `Expression` itself. -/
structure RKDirichletBC (n : ℕ) where
  expr : Expression n
  constrained : Fin n → Bool
  pyattr_t : Option ℚ

/-- The constraint data `bc.apply` acts with: the wrapped expression
evaluated at its own parameter (`pyattr_t` is not consulted). -/
def RKDirichletBC.toData {n : ℕ} (g : RKDirichletBC n) : DirichletBCData n :=
  ⟨g.constrained, g.expr.val g.expr.t⟩

/-- The tolerance `1.0e-15` of the explicitness assertion, written as a
normalized rational (`10 ^ (-15 : ℤ)`) so that concrete instances
evaluate inside the kernel. -/
def assertTol : ℚ := mkRat 1 1000000000000000

/-- The assertion guarding `runge_kutta_step`:
`numpy.all(abs(A[numpy.triu_indices(s)]) < 1.0e-15)`, i.e. every entry
on or above the diagonal has magnitude below `1e-15`. -/
def tableauIsExplicit (Atab : List (List ℚ)) (s : ℕ) : Prop :=
  ∀ i < s, ∀ j < s, i ≤ j → |(Atab.getD i []).getD j 0| < assertTol

instance tableauIsExplicit.dec (Atab : List (List ℚ)) (s : ℕ) :
    Decidable (tableauIsExplicit Atab s) := by
  unfold tableauIsExplicit; infer_instance

/-- The failure an `AssertionError` raised by the explicitness assertion
is rendered as. -/
def rkAssertionMessage : String :=
  "AssertionError: tableau has an entry of magnitude at least 1e-15 on or above the diagonal"

/-- One iteration of the stage loop of `runge_kutta_step`, acting on the
accumulator `(k, recorded solves)`:
`U = u0`; `for j in range(i): U += ddt * A[i][j] * k[j]`;
`L = F(t + c[i] * dt, U)`; `for g in BCS[1]: g.t = t + c[i] * dt`
(this sets the Python attribute on the `DirichletBC` wrapper, see
`RKDirichletBC`); `solve(u * v * dx == L, k[i], bcs=BCS[1], ...)`,
i.e. the mass system on `V` with right-hand side `assemble(L)` and the
boundary conditions row-applied before the Krylov solve. -/
def rk_stage_step {n : ℕ} (kernel : SolverKernel n) (params : KrylovParams)
    (Mv : Mat n) (F : ℚ → Vec n → Vec n) (u0 : Vec n) (t dt : ℚ)
    (Atab : List (List ℚ)) (ctab : List ℚ) (BCS1 : List (RKDirichletBC n))
    (acc : List (Vec n) × List (SolveCall n)) (i : ℕ) :
    List (Vec n) × List (SolveCall n) :=
  let U := (List.range i).foldl
    (fun U j => U + (dt * ((Atab.getD i []).getD j 0)) • (acc.1.getD j (fun _ => 0))) u0
  let L := F (t + (ctab.getD i 0) * dt) U
  let bcs1 := BCS1.map (fun g => { g with pyattr_t := some (t + (ctab.getD i 0) * dt) })
  let Ar := applyBCs (bcs1.map RKDirichletBC.toData) Mv L
  let call : SolveCall n := ⟨params, Ar.1, none, Ar.2⟩
  (acc.1 ++ [solveWithKrylov kernel call], acc.2 ++ [call])

/-- runge_kutta_step.  `Mv` is `assemble(u * v * dx)` on `V` (the
mass-weighted left-hand side of every stage and of the combining solve);
`F t U` is the assembled weak residual `assemble(F(t, U, v))`, applied
to the coefficient vector of the (linear-combination) expression `U`.

Statement by statement: `s = len(b)`; the explicitness assertion (an
`AssertionError` aborts the call before anything else runs); `BCS[k]`
for `k = 0, 1` holds `DirichletBC(V, Expression(ccode(diff(expr, t, k)),
t=t+dt), boundary)` for every `(boundary, expr)` pair; the stage loop
(`rk_stage_step`); the combination `U = u0; for i in range(s):
U += b[i] * k[i]`; `for g in BCS[0]: g.t = t + dt`; and the final solve
`u * v * dx == (u0 + ddt * U) * v * dx` with `bcs=BCS[0]`. -/
def runge_kutta_step {n : ℕ} (Atab : List (List ℚ)) (btab ctab : List ℚ)
    (Mv : Mat n) (F : ℚ → Vec n → Vec n) (u0 : Vec n) (t dt : ℚ)
    (sympy_dirichlet_bcs : List ((Fin n → Bool) × SympyExpr n))
    (tol : ℚ) (verbose : Bool) (kernel : SolverKernel n) :
    Except String (StepResult n) :=
  let s := btab.length
  if tableauIsExplicit Atab s then
    let BCS : ℕ → List (RKDirichletBC n) := fun k =>
      sympy_dirichlet_bcs.map (fun bd =>
        { expr := { val := bd.2.deriv k, t := t + dt }
          constrained := bd.1
          pyattr_t := none })
    let params : KrylovParams :=
      ⟨"iterative", "hypre_amg", tol, 0, 100, verbose⟩
    let st := (List.range s).foldl
      (rk_stage_step kernel params Mv F u0 t dt Atab ctab (BCS 1)) ([], [])
    let Ufin := (List.range s).foldl
      (fun U i => U + (btab.getD i 0) • (st.1.getD i (fun _ => 0))) u0
    let bcs0 := (BCS 0).map (fun g => { g with pyattr_t := some (t + dt) })
    let Ar := applyBCs (bcs0.map RKDirichletBC.toData) Mv (matVec Mv (u0 + dt • Ufin))
    let call : SolveCall n := ⟨params, Ar.1, none, Ar.2⟩
    Except.ok ⟨st.2 ++ [call], solveWithKrylov kernel call⟩
  else
    Except.error rkAssertionMessage

/-- heun_step: Heun tableau with midpoint parameter `alpha = 2/3`. -/
def heun_step {n : ℕ} (Mv : Mat n) (F : ℚ → Vec n → Vec n) (u0 : Vec n)
    (t dt : ℚ) (sympy_dirichlet_bcs : List ((Fin n → Bool) × SympyExpr n))
    (tol : ℚ) (verbose : Bool) (kernel : SolverKernel n) :
    Except String (StepResult n) :=
  let alpha : ℚ := 2 / 3
  runge_kutta_step
    [[0, 0], [alpha, 0]]
    [1 - 1 / (2 * alpha), 1 / (2 * alpha)]
    [0, alpha]
    Mv F u0 t dt sympy_dirichlet_bcs tol verbose kernel

/-- rk4_step: classical RK4 tableau. -/
def rk4_step {n : ℕ} (Mv : Mat n) (F : ℚ → Vec n → Vec n) (u0 : Vec n)
    (t dt : ℚ) (sympy_dirichlet_bcs : List ((Fin n → Bool) × SympyExpr n))
    (tol : ℚ) (verbose : Bool) (kernel : SolverKernel n) :
    Except String (StepResult n) :=
  runge_kutta_step
    [[0, 0, 0, 0], [1/2, 0, 0, 0], [0, 1/2, 0, 0], [0, 0, 1, 0]]
    [1/6, 1/3, 1/3, 1/6]
    [0, 1/2, 1/2, 1]
    Mv F u0 t dt sympy_dirichlet_bcs tol verbose kernel

/-- rkf_step: Runge-Kutta-Fehlberg tableau with the 5th-order weights. -/
def rkf_step {n : ℕ} (Mv : Mat n) (F : ℚ → Vec n → Vec n) (u0 : Vec n)
    (t dt : ℚ) (sympy_dirichlet_bcs : List ((Fin n → Bool) × SympyExpr n))
    (tol : ℚ) (verbose : Bool) (kernel : SolverKernel n) :
    Except String (StepResult n) :=
  runge_kutta_step
    [[0, 0, 0, 0, 0, 0],
     [1/4, 0, 0, 0, 0, 0],
     [3/32, 9/32, 0, 0, 0, 0],
     [1932/2197, -7200/2197, 7296/2197, 0, 0, 0],
     [439/216, -8, 3680/513, -845/4104, 0, 0],
     [-8/27, 2, -3544/2565, 1859/4104, -11/40, 0]]
    [16/135, 0, 6656/12825, 28561/56430, -9/50, 2/55]
    [0, 1/4, 3/8, 12/13, 1, 1/2]
    Mv F u0 t dt sympy_dirichlet_bcs tol verbose kernel

/-- System the spec claims `ExplicitEuler.step` solves: the Dirichlet
constraints of `get_bcs(t + dt)` applied to the pair
`(M, M u0 + dt (b(t) - L(t) u0))` with `(L, b) = get_system(t)`. -/
def explicitEulerClaimedSystem {n : ℕ} (p : ParabolicProblem n) (u0 : Vec n) (t dt : ℚ) :
    Mat n × Vec n :=
  applyBCs (p.get_bcs (t + dt)) p.massMatrix
    (matVec p.massMatrix u0 + dt • ((p.get_system t).2 - matVec (p.get_system t).1 u0))

/-- System the spec claims `ImplicitEuler.step` solves:
`(M + dt L(t+dt)) u1 = M u0 + dt b(t+dt)` with `(L, b) =
get_system(t + dt)` and the constraints of `get_bcs(t + dt)` applied. -/
def implicitEulerClaimedSystem {n : ℕ} (p : ParabolicProblem n) (u0 : Vec n) (t dt : ℚ) :
    Mat n × Vec n :=
  applyBCs (p.get_bcs (t + dt)) (p.massMatrix + dt • (p.get_system (t + dt)).1)
    (matVec p.massMatrix u0 + dt • (p.get_system (t + dt)).2)

/-- System the spec claims `Trapezoidal.step` solves:
`(M + 0.5 dt L(t+dt)) u1 = M u0 + 0.5 dt (b(t) + b(t+dt))
- 0.5 dt L(t) u0` with the constraints of `get_bcs(t + dt)` applied. -/
def trapezoidalClaimedSystem {n : ℕ} (p : ParabolicProblem n) (u0 : Vec n) (t dt : ℚ) :
    Mat n × Vec n :=
  applyBCs (p.get_bcs (t + dt)) (p.massMatrix + ((1/2 : ℚ) * dt) • (p.get_system (t + dt)).1)
    (matVec p.massMatrix u0
      + ((1/2 : ℚ) * dt) • ((p.get_system t).2 + (p.get_system (t + dt)).2)
      - ((1/2 : ℚ) * dt) • matVec (p.get_system t).1 u0)

/-- Right-hand side the claim prescribes for the combining solve of
`runge_kutta_step`: the mass-weighted vector of
`U = u0 + dt * sum_i b[i] * k[i]` (accumulated from zero, with `dt`
multiplying only the weighted stage sum). -/
def rk_claimed_final_rhs {n : ℕ} (Mv : Mat n) (btab : List ℚ) (ks : List (Vec n))
    (u0 : Vec n) (dt : ℚ) : Vec n :=
  matVec Mv (u0 + dt • (List.range btab.length).foldl
    (fun U i => U + (btab.getD i 0) • (ks.getD i (fun _ => 0))) (fun _ => 0))

/-- Concrete fixture: a solver kernel that returns the right-hand side
(the exact solution whenever the applied operator is the identity). -/
def fxKernel : SolverKernel 1 := fun d => d.rhs

/-- Concrete fixture: the 1x1 identity mass matrix. -/
def fxMass : Mat 1 := fun _ _ => 1

/-- Concrete fixture: the zero weak residual `F = 0`. -/
def fxZeroF : ℚ → Vec 1 → Vec 1 := fun _ _ => fun _ => 0

/-- Concrete fixture: the state vector `(1)`. -/
def fxOnes : Vec 1 := fun _ => 1

/-- Concrete fixture: a 1-dof problem whose mass matrix entry is `2` and
whose single Dirichlet condition constrains the only dof to `5`. -/
def fxProblem : ParabolicProblem 1 :=
  { massMatrix := fun _ _ => 2
    get_system := fun _ => (fun _ _ => 0, fun _ => 0)
    get_bcs := fun _ => [⟨fun _ => true, fun _ => 5⟩]
    get_preconditioner := fun _ => none }

/-- Concrete fixture: a boundary expression whose first time derivative
is the identity function of time (and whose value is zero). -/
def fxBCExpr : SympyExpr 1 := ⟨fun k τ _ => if k = 1 then τ else 0⟩

/-- Concrete fixture: default element for reading a recorded solve off a
trace. -/
def fxDefaultCall : SolveCall 1 := ⟨⟨"", "", 0, 0, 0, false⟩, fun _ _ => 0, none, fun _ => 0⟩

theorem assertTol_eq : assertTol = 1 / 10 ^ 15 := by
  norm_num [assertTol, mkRat]

theorem applyBCs_fst {n : ℕ} (bcs : List (DirichletBCData n)) (A : Mat n) (rhs : Vec n) :
    (applyBCs bcs A rhs).1 = applyBCsMat bcs A := by
  induction bcs generalizing A rhs with
  | nil => rfl
  | cons bc bcs ih => simpa [applyBCs, applyBCsMat] using ih (bcApplyMat bc A) (bcApplyVec bc rhs)

/-- C4: `ExplicitEuler.step` on a freshly constructed stepper performs
exactly one linear solve, namely of the system obtained by applying the
Dirichlet constraints of `get_bcs(t + dt)` to the pair
`(M, M u0 + dt (b(t) - L(t) u0))` with `(L, b) = get_system(t)`, using
the CG/AMG solver, and the returned state is the solution the linear
solver produces for that system. -/
theorem c4_explicit_euler_step_spec {n : ℕ} (p : ParabolicProblem n)
    (kernel : SolverKernel n) (u0 : Vec n) (t dt tol : ℚ) (maxiter : ℕ) (verbose : Bool) :
    ((ExplicitEuler.init p).step kernel u0 t dt tol maxiter verbose).1 =
      { solves := [⟨⟨"cg", "amg", tol, 0, maxiter, verbose⟩,
          (explicitEulerClaimedSystem p u0 t dt).1, none,
          (explicitEulerClaimedSystem p u0 t dt).2⟩]
        u1 := solveWithKrylov kernel ⟨⟨"cg", "amg", tol, 0, maxiter, verbose⟩,
          (explicitEulerClaimedSystem p u0 t dt).1, none,
          (explicitEulerClaimedSystem p u0 t dt).2⟩ } := by
  simp only [ExplicitEuler.step, ExplicitEuler.init, explicitEulerClaimedSystem,
    neg_add_eq_sub]

/-- C5: `ImplicitEuler.step` on a freshly constructed stepper performs
exactly one linear solve, namely of the system obtained by applying the
Dirichlet constraints of `get_bcs(t + dt)` to
`(M + dt L(t+dt), M u0 + dt b(t+dt))` with `(L, b) = get_system(t+dt)`,
with preconditioning operator `M + dt P(t+dt)` when the provider
supplies one, and the returned state is the solution the linear solver
produces for that system. -/
theorem c5_implicit_euler_step_spec {n : ℕ} (p : ParabolicProblem n)
    (kernel : SolverKernel n) (u0 : Vec n) (t dt tol : ℚ) (maxiter : ℕ) (verbose : Bool)
    (krylov preconditioner : String) :
    ((ImplicitEuler.init p).step kernel u0 t dt tol maxiter verbose krylov preconditioner).1 =
      { solves := [⟨⟨krylov, preconditioner, tol, 0, maxiter, verbose⟩,
          (implicitEulerClaimedSystem p u0 t dt).1,
          (p.get_preconditioner (t + dt)).map (fun Pm => p.massMatrix + dt • Pm),
          (implicitEulerClaimedSystem p u0 t dt).2⟩]
        u1 := solveWithKrylov kernel ⟨⟨krylov, preconditioner, tol, 0, maxiter, verbose⟩,
          (implicitEulerClaimedSystem p u0 t dt).1,
          (p.get_preconditioner (t + dt)).map (fun Pm => p.massMatrix + dt • Pm),
          (implicitEulerClaimedSystem p u0 t dt).2⟩ } := by
  simp only [ImplicitEuler.step, ImplicitEuler.init, implicitEulerClaimedSystem]

/-- C6: `Trapezoidal.step` on a freshly constructed stepper performs
exactly one linear solve, namely of the system obtained by applying the
Dirichlet constraints of `get_bcs(t + dt)` to
`(M + 0.5 dt L(t+dt), M u0 + 0.5 dt (b(t) + b(t+dt)) - 0.5 dt L(t) u0)`,
and the returned state is the solution the linear solver produces for
that system. -/
theorem c6_trapezoidal_step_spec {n : ℕ} (p : ParabolicProblem n)
    (kernel : SolverKernel n) (u0 : Vec n) (t dt tol : ℚ) (maxiter : ℕ) (verbose : Bool)
    (krylov preconditioner : String) :
    ((Trapezoidal.init p).step kernel u0 t dt tol maxiter verbose krylov preconditioner).1 =
      { solves := [⟨⟨krylov, preconditioner, tol, 0, maxiter, verbose⟩,
          (trapezoidalClaimedSystem p u0 t dt).1, none,
          (trapezoidalClaimedSystem p u0 t dt).2⟩]
        u1 := solveWithKrylov kernel ⟨⟨krylov, preconditioner, tol, 0, maxiter, verbose⟩,
          (trapezoidalClaimedSystem p u0 t dt).1, none,
          (trapezoidalClaimedSystem p u0 t dt).2⟩ } := by
  have hv : matVec p.massMatrix u0 + (-dt * (1/2)) • matVec (p.get_system t).1 u0
        + (dt * (1/2)) • ((p.get_system t).2 + (p.get_system (t + dt)).2)
      = matVec p.massMatrix u0
        + ((1/2 : ℚ) * dt) • ((p.get_system t).2 + (p.get_system (t + dt)).2)
        - ((1/2 : ℚ) * dt) • matVec (p.get_system t).1 u0 := by
    funext i
    simp only [Pi.add_apply, Pi.sub_apply, Pi.smul_apply, smul_eq_mul]
    ring
  simp only [Trapezoidal.step, Trapezoidal.init, trapezoidalClaimedSystem, hv]

/-- C10: neither `ImplicitEuler.step` nor `Trapezoidal.step` changes the
stepper state: the system operator is a freshly created sum
(`M + dt L(t+dt)` resp. `M + 0.5 dt L(t+dt)`), boundary application
mutates only that fresh matrix and the right-hand side, and the stored
mass matrix `self.M` after `step` equals `self.M` before. -/
theorem c10_implicit_trapezoidal_frame {n : ℕ} (Si : ImplicitEuler n) (St : Trapezoidal n)
    (kernel : SolverKernel n) (u0 : Vec n) (t dt tol : ℚ) (maxiter : ℕ) (verbose : Bool)
    (krylov preconditioner : String) :
    (Si.step kernel u0 t dt tol maxiter verbose krylov preconditioner).2 = Si
    ∧ (St.step kernel u0 t dt tol maxiter verbose krylov preconditioner).2 = St :=
  ⟨rfl, rfl⟩

/-- C3 counterexample: for the concrete 1-dof problem `fxProblem` (mass
matrix entry `2`, one Dirichlet constraint), the mass operator stored in
a freshly constructed `ExplicitEuler` differs from the one stored after
a single `step` call: `bc.apply` acts on `A = self.M`, an alias of the
stored matrix, and overwrites the constrained row in place. -/
theorem c3_mass_never_mutated_counterexample :
    ((ExplicitEuler.init fxProblem).step fxKernel (fun _ => 0) 0 1 0 100 true).2.M
      ≠ (ExplicitEuler.init fxProblem).M := by
  decide

/-- C3 amended: `ImplicitEuler.step` and `Trapezoidal.step` never change
the stored mass operator, while `ExplicitEuler.step` applies the
boundary conditions of `get_bcs(t + dt)` directly to the stored mass
operator, so that operator is mutated exactly as bc row-application
prescribes (in particular it is unchanged when the constraint set is
empty, and a constrained row is overwritten with an identity row). -/
theorem c3_mass_mutation_amended {n : ℕ} (Se : ExplicitEuler n) (Si : ImplicitEuler n)
    (St : Trapezoidal n) (kernel : SolverKernel n) (u0 : Vec n) (t dt tol : ℚ)
    (maxiter : ℕ) (verbose : Bool) (krylov preconditioner : String) :
    (Si.step kernel u0 t dt tol maxiter verbose krylov preconditioner).2 = Si
    ∧ (St.step kernel u0 t dt tol maxiter verbose krylov preconditioner).2 = St
    ∧ (Se.step kernel u0 t dt tol maxiter verbose).2.M
        = applyBCsMat (Se.problem.get_bcs (t + dt)) Se.M := by
  refine ⟨rfl, rfl, ?_⟩
  simp only [ExplicitEuler.step, applyBCs_fst]

/-- C8: `Dummy.step` returns a freshly allocated function whose dof
values equal those of the input state, at an allocation index distinct
from the input index, and its trace of linear solves is empty. -/
theorem c8_dummy_step_identity {n : ℕ} (S : Dummy n) (heap : List (Vec n)) (u0 : ℕ)
    (t dt : ℚ) (bcs1 : List (DirichletBCData n)) (tol : ℚ) (verbose : Bool)
    (h : u0 < heap.length) :
    (S.step heap u0 t dt bcs1 tol verbose).1.getD
        (S.step heap u0 t dt bcs1 tol verbose).2.1 (fun _ => 0)
      = heap.getD u0 (fun _ => 0)
    ∧ (S.step heap u0 t dt bcs1 tol verbose).2.1 ≠ u0
    ∧ (S.step heap u0 t dt bcs1 tol verbose).2.2 = [] := by
  refine ⟨?_, ?_, rfl⟩
  · simp only [Dummy.step, List.set_append, List.getD, List.getElem?_append_left h]
    simp [List.getD, List.getElem?_append_left h]
  · simpa only [Dummy.step] using Nat.ne_of_gt h

/-- C8 witness: a concrete one-cell heap holding the vector `(3)`. -/
theorem c8_dummy_step_identity_witness :
    0 < ([fun _ => (3 : ℚ)] : List (Vec 1)).length
    ∧ ((Dummy.mk fxProblem).step [fun _ => (3 : ℚ)] 0 0 1 [] 0 true).1.getD
          ((Dummy.mk fxProblem).step [fun _ => (3 : ℚ)] 0 0 1 [] 0 true).2.1 (fun _ => 0)
        = ([fun _ => (3 : ℚ)] : List (Vec 1)).getD 0 (fun _ => 0)
      ∧ ((Dummy.mk fxProblem).step [fun _ => (3 : ℚ)] 0 0 1 [] 0 true).2.1 ≠ 0
      ∧ ((Dummy.mk fxProblem).step [fun _ => (3 : ℚ)] 0 0 1 [] 0 true).2.2 = [] :=
  ⟨by decide,
    c8_dummy_step_identity (Dummy.mk fxProblem) [fun _ => (3 : ℚ)] 0 0 1 [] 0 true (by decide)⟩

/-- C7 counterexample: the diagonal entry `1e-16` of the concrete
tableau `A = [[1e-16]]` is nonzero, yet `runge_kutta_step` does not
fail: it performs its stage solve and its combining solve (two recorded
solves), because the assertion only rejects entries of magnitude at
least `1e-15`. -/
theorem c7_explicitness_counterexample :
    (([[ (mkRat 1 10000000000000000 : ℚ) ]].getD 0 []).getD 0 0) ≠ 0
    ∧ (runge_kutta_step [[mkRat 1 10000000000000000]] [1] [0] fxMass fxZeroF fxOnes 0 1
          [] 0 true fxKernel).map (fun r => r.solves.length) = Except.ok 2 := by
  constructor
  · decide
  · have h : tableauIsExplicit [[mkRat 1 10000000000000000]] 1 := by decide
    simp [runge_kutta_step, rk_stage_step, h, List.range_succ, Except.map]

/-- C7 amended: `runge_kutta_step` with a tableau whose matrix has an
entry of magnitude at least `1e-15` on or above the diagonal fails with
the assertion error before any linear solve is attempted (the result
carries no solve trace); entries of magnitude below `1e-15` pass the
check. -/
theorem c7_explicitness_amended {n : ℕ} (Atab : List (List ℚ)) (btab ctab : List ℚ)
    (Mv : Mat n) (F : ℚ → Vec n → Vec n) (u0 : Vec n) (t dt : ℚ)
    (sympy_dirichlet_bcs : List ((Fin n → Bool) × SympyExpr n)) (tol : ℚ) (verbose : Bool)
    (kernel : SolverKernel n)
    (h : ¬ tableauIsExplicit Atab btab.length) :
    runge_kutta_step Atab btab ctab Mv F u0 t dt sympy_dirichlet_bcs tol verbose kernel
      = Except.error rkAssertionMessage := by
  simp only [runge_kutta_step, if_neg h]

/-- C7 amended witness: the 1-stage tableau `A = [[1]]` fails the
explicitness check and yields the assertion error. -/
theorem c7_explicitness_amended_witness :
    (¬ tableauIsExplicit [[(1 : ℚ)]] 1)
    ∧ runge_kutta_step [[(1 : ℚ)]] [1] [0] fxMass fxZeroF fxOnes 0 1 [] 0 true fxKernel
        = Except.error rkAssertionMessage :=
  ⟨by decide,
    c7_explicitness_amended [[(1 : ℚ)]] [1] [0] fxMass fxZeroF fxOnes 0 1 [] 0 true fxKernel
      (by decide)⟩

/-- C1 (evaluation of the code at the failing input): with the one-stage
explicit-Euler tableau `A = [[0]]`, `b = [1]`, `c = [0]`, zero residual
`F`, identity mass matrix, `u0 = (1)`, `t = 0`, `dt = 1`, no Dirichlet
data and the exact solver kernel, the stage derivative is `k = (0)`, so
the claim prescribes the final mass-weighted right-hand side
`u0 + dt * (b[0] * k[0]) = (1)`; the code instead accumulates the
combination starting from `u0` and multiplies the whole accumulator by
`dt` again, returning `theta = (2)`. -/
theorem c1_rk_combine_evaluation :
    (runge_kutta_step [[0]] [1] [0] fxMass fxZeroF fxOnes 0 1 [] 0 true fxKernel).map
        (fun r => r.u1 0) = Except.ok 2
    ∧ rk_claimed_final_rhs fxMass [1] [fun _ => 0] fxOnes 1 0 = 1
    ∧ (2 : ℚ) ≠ 1 := by
  refine ⟨?_, ?_, by norm_num⟩
  · have h : tableauIsExplicit [[(0 : ℚ)]] 1 := by decide
    simp [runge_kutta_step, rk_stage_step, h, matVec, Fin.sum_univ_one, fxKernel, fxZeroF,
      fxOnes, fxMass, applyBCs, solveWithKrylov, SolveCall.numeric, List.range_succ]
    norm_num [Except.map, matVec, Fin.sum_univ_one, fxMass, fxOnes, fxZeroF]
  · simp [rk_claimed_final_rhs, matVec, Fin.sum_univ_one, fxMass, fxOnes, List.range_succ]

/-- C2 (evaluation of the code at the failing input): with the Heun
tableau (`c[1] = 2/3`), `t = 0`, `dt = 1`, zero residual, identity mass
matrix and one boundary expression whose first time derivative is the
identity function of time, the boundary value applied in the second
stage solve (recorded in its right-hand side) is `1`, i.e. the first
derivative evaluated at `t + dt`; the claim prescribes the first
derivative at `t + c[1] * dt = 2/3`.  The retiming statement
`g.t = t + c[i] * dt` only creates an attribute on the `DirichletBC`
wrapper (see `RKDirichletBC`), so the stage data stays at `t + dt`. -/
theorem c2_rk_stage_bc_evaluation :
    (runge_kutta_step [[0, 0], [mkRat 2 3, 0]] [mkRat 1 4, mkRat 3 4] [0, mkRat 2 3]
        fxMass fxZeroF fxOnes 0 1 [(fun _ => true, fxBCExpr)] 0 true fxKernel).map
      (fun r => (r.solves.getD 1 fxDefaultCall).rhs 0) = Except.ok 1
    ∧ fxBCExpr.deriv 1 (0 + mkRat 2 3 * 1) 0 = mkRat 2 3
    ∧ (1 : ℚ) ≠ mkRat 2 3 := by
  refine ⟨?_, ?_, by decide⟩
  · have h : tableauIsExplicit [[0, 0], [mkRat 2 3, 0]] 2 := by decide
    simp [runge_kutta_step, rk_stage_step, h, matVec, Fin.sum_univ_one, fxKernel, fxZeroF,
      fxOnes, fxMass, applyBCs, solveWithKrylov, SolveCall.numeric, fxBCExpr,
      RKDirichletBC.toData, bcApplyVec, bcApplyMat, List.range_succ]
    norm_num [Except.map, bcApplyVec, fxZeroF]
  · simp only [fxBCExpr, if_pos rfl]
    norm_num [Rat.mkRat_eq_div]

theorem rk_stage_fold_params {n : ℕ} (kernel : SolverKernel n) (p q : KrylovParams)
    (hpq : p.numeric = q.numeric) (Mv : Mat n) (F : ℚ → Vec n → Vec n) (u0 : Vec n)
    (t dt : ℚ) (Atab : List (List ℚ)) (ctab : List ℚ) (BCS1 : List (RKDirichletBC n))
    (l : List ℕ) (acc1 acc2 : List (Vec n) × List (SolveCall n))
    (h1 : acc1.1 = acc2.1)
    (h2 : acc1.2.map SolveCall.numeric = acc2.2.map SolveCall.numeric) :
    (l.foldl (rk_stage_step kernel p Mv F u0 t dt Atab ctab BCS1) acc1).1
      = (l.foldl (rk_stage_step kernel q Mv F u0 t dt Atab ctab BCS1) acc2).1
    ∧ (l.foldl (rk_stage_step kernel p Mv F u0 t dt Atab ctab BCS1) acc1).2.map SolveCall.numeric
      = (l.foldl (rk_stage_step kernel q Mv F u0 t dt Atab ctab BCS1) acc2).2.map
          SolveCall.numeric := by
  induction l generalizing acc1 acc2 with
  | nil => exact ⟨h1, h2⟩
  | cons i l ih =>
    simp only [List.foldl_cons]
    apply ih
    · show (rk_stage_step kernel p Mv F u0 t dt Atab ctab BCS1 acc1 i).1
        = (rk_stage_step kernel q Mv F u0 t dt Atab ctab BCS1 acc2 i).1
      simp only [rk_stage_step, solveWithKrylov, SolveCall.numeric, h1, hpq]
    · show (rk_stage_step kernel p Mv F u0 t dt Atab ctab BCS1 acc1 i).2.map SolveCall.numeric
        = (rk_stage_step kernel q Mv F u0 t dt Atab ctab BCS1 acc2 i).2.map SolveCall.numeric
      simp only [rk_stage_step, List.map_append, List.map_cons, List.map_nil,
        SolveCall.numeric, h1, h2, hpq]

/-- C9: toggling `verbose` alone never changes what a step computes: for
`Dummy` the results are identical; for `ExplicitEuler`, `ImplicitEuler`
and `Trapezoidal` the returned state, the numerical content of every
recorded solve, and the post-step stepper state coincide; and for
`runge_kutta_step` the observable outcome (result state and numerical
solve contents) coincides.  `verbose` reaches only the solver parameter
`monitor_convergence`, which controls progress reporting. -/
theorem c9_verbose_noninterference {n : ℕ} (Sd : Dummy n) (Se : ExplicitEuler n)
    (Si : ImplicitEuler n) (St : Trapezoidal n) (kernel : SolverKernel n)
    (heap : List (Vec n)) (u0r : ℕ) (u0 : Vec n) (t dt tol : ℚ) (maxiter : ℕ)
    (krylov preconditioner : String) (bcs1 : List (DirichletBCData n))
    (Atab : List (List ℚ)) (btab ctab : List ℚ) (Mv : Mat n) (F : ℚ → Vec n → Vec n)
    (sbcs : List ((Fin n → Bool) × SympyExpr n)) :
    Sd.step heap u0r t dt bcs1 tol true = Sd.step heap u0r t dt bcs1 tol false
    ∧ (Se.step kernel u0 t dt tol maxiter true).1.observable
        = (Se.step kernel u0 t dt tol maxiter false).1.observable
    ∧ (Se.step kernel u0 t dt tol maxiter true).2
        = (Se.step kernel u0 t dt tol maxiter false).2
    ∧ (Si.step kernel u0 t dt tol maxiter true krylov preconditioner).1.observable
        = (Si.step kernel u0 t dt tol maxiter false krylov preconditioner).1.observable
    ∧ (Si.step kernel u0 t dt tol maxiter true krylov preconditioner).2
        = (Si.step kernel u0 t dt tol maxiter false krylov preconditioner).2
    ∧ (St.step kernel u0 t dt tol maxiter true krylov preconditioner).1.observable
        = (St.step kernel u0 t dt tol maxiter false krylov preconditioner).1.observable
    ∧ (St.step kernel u0 t dt tol maxiter true krylov preconditioner).2
        = (St.step kernel u0 t dt tol maxiter false krylov preconditioner).2
    ∧ (runge_kutta_step Atab btab ctab Mv F u0 t dt sbcs tol true kernel).map
          StepResult.observable
        = (runge_kutta_step Atab btab ctab Mv F u0 t dt sbcs tol false kernel).map
          StepResult.observable := by
  refine ⟨rfl, rfl, rfl, rfl, rfl, rfl, rfl, ?_⟩
  by_cases h : tableauIsExplicit Atab btab.length
  · have hfold := rk_stage_fold_params kernel
      ⟨"iterative", "hypre_amg", tol, 0, 100, true⟩
      ⟨"iterative", "hypre_amg", tol, 0, 100, false⟩ rfl Mv F u0 t dt Atab ctab
      ((sbcs.map fun bd =>
        { expr := { val := bd.2.deriv 1, t := t + dt }
          constrained := bd.1
          pyattr_t := none }))
      (List.range btab.length) ([], []) ([], []) rfl rfl
    simp only [runge_kutta_step, if_pos h, Except.map, StepResult.observable,
      List.map_append, List.map_cons, List.map_nil, solveWithKrylov, SolveCall.numeric,
      KrylovParams.numeric, hfold.1, hfold.2]
  · simp only [runge_kutta_step, if_neg h]
